import Mathlib

/-!
Verification development for the ClientGeoHub single-page application.

The definitions below are a shallow embedding of the client-side logic of
the repository:

* the debounced, cancelable geocoding search controller
  (`EnhancedLocationSearch` in `src/App.jsx`),
* the login/registration validation (`src/components/login.jsx`),
* the dashboard's live record store interaction and sidebar filtering
  (`SimpleMapWithSearch` in `src/App.jsx`).

Machine floats of the source (latitudes/longitudes) are embedded as `ℚ`;
ISO-8601 timestamp strings, which compare chronologically exactly when they
compare lexicographically, are embedded as `Nat` instants.
-/

/-- A geocoder suggestion as normalised by both provider adapters in
`src/App.jsx` (`apis.nominatim.search` / `apis.photon.search`):
an id, a display label, a coordinate and a type tag. -/
structure Suggestion where
  id : Nat
  display_name : String
  lat : ℚ
  lon : ℚ
  tag : String
deriving DecidableEq

/-- The React state of `EnhancedLocationSearch` (`src/App.jsx` lines 149-160),
together with the abort-controller bookkeeping held in `abortControllerRef`:
`currentGen` numbers the controller currently stored in the ref (0 = none yet),
and `abortedGens` records every controller on which `abort()` has been called. -/
structure SearchState where
  query : String
  suggestions : List Suggestion
  selectedPos : Option (ℚ × ℚ)
  selectedName : String
  isExpanded : Bool
  isLoading : Bool
  error : String
  currentGen : Nat
  abortedGens : List Nat
deriving DecidableEq

/-- The initial search state (`useState` initialisers, `src/App.jsx` 149-159). -/
def initSearchState : SearchState :=
  { query := ""
    suggestions := []
    selectedPos := none
    selectedName := ""
    isExpanded := false
    isLoading := false
    error := ""
    currentGen := 0
    abortedGens := [] }

/-- Outcome of one geocoding network call as seen by the `try`/`catch` in
`searchLocations`: either a (possibly empty) normalised result list, or a
thrown error carrying its `name` property. -/
inductive FetchOutcome where
  | results (l : List Suggestion)
  | failure (name : String)
deriving DecidableEq

/-- The synchronous prefix of `searchLocations` (`src/App.jsx` 205-218): the
short-query guard, the `abort()` of the previous controller, the fresh
controller, and the `setIsLoading(true)` / `setError('')` calls.  Returns the
updated state and, when a lookup is actually issued, `some g` where `g` is the
generation number of the new controller; `none` means no network call is made. -/
def searchLocationsStart (searchQuery : String) (s : SearchState) :
    SearchState × Option Nat :=
  if searchQuery.length < 3 then
    ({ s with suggestions := [] }, none)
  else
    let aborted := if s.currentGen == 0 then s.abortedGens
                   else s.currentGen :: s.abortedGens
    let g := s.currentGen + 1
    ({ s with abortedGens := aborted, currentGen := g,
              isLoading := true, error := "" }, some g)

/-- The continuation of `searchLocations` that runs when the awaited fetch
settles (`src/App.jsx` 219-235): the result/zero-result branches, the `catch`
that ignores errors named `AbortError`, and the `finally` that clears the
loading flag.  Faithful to the source, this handler consults neither the
current abort controller nor any generation counter: whatever outcome arrives
is applied to the visible state unconditionally (except for the dead
`AbortError` branch). -/
def searchLocationsResolve (out : FetchOutcome) (s : SearchState) : SearchState :=
  let s' :=
    match out with
    | .results l =>
        if l.length > 0 then { s with suggestions := l }
        else { s with suggestions := [], error := "No results found" }
    | .failure n =>
        if n == "AbortError" then s
        else { s with error := "Search failed. Please try again.", suggestions := [] }
  { s' with isLoading := false }

/-- Events of the search flow: a debounced invocation of `searchLocations`
with a query, or the settling of the fetch started by the lookup numbered `g`.
Because neither fetch call in `src/App.jsx` (lines 167-176 and 190-192) is
given the abort controller's `signal`, aborting a controller does not affect
its fetch: the outcome of lookup `g` is delivered to the handler regardless of
whether generation `g` was aborted, and never as an `AbortError`. -/
inductive SearchEvent where
  | issue (q : String)
  | resolve (g : Nat) (out : FetchOutcome)
deriving DecidableEq

/-- One step of the search controller.  On `resolve g out` the generation `g`
is ignored, exactly as in the source: the handler applies the outcome without
checking whether its request was superseded. -/
def searchStep (s : SearchState) : SearchEvent → SearchState
  | .issue q => (searchLocationsStart q s).1
  | .resolve _ out => searchLocationsResolve out s

/-- Run the search controller over a list of events. -/
def runSearch (evs : List SearchEvent) (s : SearchState) : SearchState :=
  evs.foldl searchStep s

/-- `handleSelect` (`src/App.jsx` 252-266): records the chosen place as the
selected position and name, copies its label into the query box, clears the
suggestions, collapses the panel, clears the error, and — when the map ref is
populated — calls `setView([lat, lon], 14)`.  The second component is the
recenter request passed to the map, `none` when no map instance exists. -/
def handleSelect (place : Suggestion) (mapPresent : Bool) (s : SearchState) :
    SearchState × Option (ℚ × ℚ × Nat) :=
  ({ s with selectedPos := some (place.lat, place.lon)
            selectedName := place.display_name
            query := place.display_name
            suggestions := []
            isExpanded := false
            error := "" },
   if mapPresent then some (place.lat, place.lon, 14) else none)

/-- `handleClear` (`src/App.jsx` 268-275): resets query, suggestions,
selected position, selected name, expansion flag and error. -/
def handleClear (s : SearchState) : SearchState :=
  { s with query := ""
           suggestions := []
           selectedPos := none
           selectedName := ""
           isExpanded := false
           error := "" }

/-- Whether `needle` is a suffix of `hay`: either the whole of `hay`, or a
suffix of its tail. -/
def charsEndWith (hay needle : List Char) : Bool :=
  match hay with
  | [] => needle.isEmpty
  | _ :: tl => hay == needle || charsEndWith tl needle

/-- JS `s.endsWith(suffixStr)`. -/
def jsEndsWith (s suffixStr : String) : Bool :=
  charsEndWith s.data suffixStr.data

/-- `handleRegister` validation (`src/components/login.jsx` 35-50): the three
synchronous checks run in source order before `createUserWithEmailAndPassword`
is reached.  Returns the list of alert messages shown and whether the
account-creation network request is issued. -/
def handleRegister (email password confirmPassword : String) :
    List String × Bool :=
  if ¬ jsEndsWith email "@seewise.ai" then
    (["Only @seewise.ai emails are allowed to register."], false)
  else if password ≠ confirmPassword then
    (["Passwords do not match"], false)
  else if password.length < 6 then
    (["Password must be at least 6 characters long"], false)
  else
    ([], true)

/-- The fields of a client record document as written by `handleFormSubmit`
(`src/App.jsx` 695-702): the four form fields plus the clicked coordinate and
the submission-time timestamp. -/
structure MarkerData where
  site_name : String
  description : String
  salesperson : String
  stage : String
  lat : ℚ
  lng : ℚ
  timestamp : Nat
deriving DecidableEq

/-- A document of the `clients` collection as delivered by a snapshot
(`src/App.jsx` 668): the store-assigned document id together with the data. -/
structure StoredDoc where
  id : Nat
  data : MarkerData
deriving DecidableEq

/-- The create/edit form's contents (`formData` state, `src/App.jsx` 648). -/
structure FormData where
  site_name : String
  description : String
  salesperson : String
  stage : String
deriving DecidableEq

/-- The administrator check of the subscription effect
(`src/App.jsx` 659): `user.email === 'admin@seewise.ai'`. -/
def isAdmin (email : String) : Bool :=
  email == "admin@seewise.ai"

/-- Insert one document into a list that is already ordered by timestamp
descending, keeping that order. -/
def insertTsDesc (d : StoredDoc) : List StoredDoc → List StoredDoc
  | [] => [d]
  | x :: xs =>
      if x.data.timestamp ≤ d.data.timestamp then d :: x :: xs
      else x :: insertTsDesc d xs

/-- Order a list of documents by timestamp descending (insertion sort).  This
embeds Firestore's `orderBy('timestamp', 'desc')`: timestamps are ISO-8601
strings, whose lexicographic order is chronological order. -/
def sortTsDesc : List StoredDoc → List StoredDoc
  | [] => []
  | x :: xs => insertTsDesc x (sortTsDesc xs)

/-- The live query built in the subscription effect (`src/App.jsx` 661-665)
under standard Firestore query semantics applied to the server's `clients`
collection: non-administrators get a `where('salesperson', '==', user.email)`
filter, everyone gets `orderBy('timestamp', 'desc')`.  A snapshot delivers
exactly this list, and the `onSnapshot` handler (`src/App.jsx` 667-670)
replaces the whole `markers` state with it. -/
def clientsQuery (email : String) (coll : List StoredDoc) : List StoredDoc :=
  sortTsDesc (if isAdmin email then coll
              else coll.filter (fun d => d.data.salesperson == email))

/-- The hardcoded `useState` initialiser of the `markers` state
(`src/App.jsx` 638-645): six demo records, all stamped with the render-time
instant `t`, shown until the first snapshot arrives. -/
def initialMarkers (t : Nat) : List MarkerData :=
  [ ⟨"Acme Corp", "Ohio", "John", "Pipeline", 41.5, -82.7, t⟩,
    ⟨"Globex Inc", "West Virginia", "Jane", "In Proposal", 39.3, -80.0, t⟩,
    ⟨"Stark Industries", "New York", "Tony", "POC Stage", 43.0, -76.0, t⟩,
    ⟨"Wayne Enterprises", "Philadelphia", "Bruce", "Current Client", 39.95, -75.16, t⟩,
    ⟨"Tech Solutions", "California", "Alice", "Pipeline", 37.7749, -122.4194, t⟩,
    ⟨"Global Systems", "Texas", "Bob", "Current Client", 32.7767, -96.7970, t⟩ ]

/-- The `newMarker` object built by `handleFormSubmit` (`src/App.jsx`
697-702): the form fields spread together with the clicked coordinate and
`new Date().toISOString()`, embedded as the instant `now`. -/
def buildNewMarker (fd : FormData) (latlng : ℚ × ℚ) (now : Nat) : MarkerData :=
  { site_name := fd.site_name
    description := fd.description
    salesperson := fd.salesperson
    stage := fd.stage
    lat := latlng.1
    lng := latlng.2
    timestamp := now }

/-- `addDoc(collection(db, 'clients'), newMarker)` (`src/App.jsx` 708): the
store appends the document under a fresh id. -/
def addDocClients (coll : List StoredDoc) (freshId : Nat) (m : MarkerData) :
    List StoredDoc :=
  coll ++ [⟨freshId, m⟩]

/-- The create branch of `handleFormSubmit`: the server collection after the
`addDoc` of the submitted form completes. -/
def createSubmit (coll : List StoredDoc) (freshId : Nat) (fd : FormData)
    (latlng : ℚ × ℚ) (now : Nat) : List StoredDoc :=
  addDocClients coll freshId (buildNewMarker fd latlng now)

/-- `updateDoc(doc(db, 'clients', editingId), newMarker)` (`src/App.jsx` 706):
`newMarker` carries every field of the document, so the update overwrites the
whole data of the document with that id. -/
def updateDocClients (coll : List StoredDoc) (docId : Nat) (m : MarkerData) :
    List StoredDoc :=
  coll.map (fun d => if d.id == docId then ⟨d.id, m⟩ else d)

/-- The edit branch of `handleFormSubmit` (`editMode && editingId`): the
server collection after the `updateDoc` of the submitted form completes. -/
def editSubmit (coll : List StoredDoc) (docId : Nat) (fd : FormData)
    (latlng : ℚ × ℚ) (now : Nat) : List StoredDoc :=
  updateDocClients coll docId (buildNewMarker fd latlng now)

/-- JS `String.prototype.toLowerCase`, restricted to the per-character
lowering that `Char.toLower` provides. -/
def jsToLower (s : String) : String :=
  String.mk (s.data.map Char.toLower)

/-- Whether `hay` starts with `needle`, on character lists. -/
def charsStartWith (hay needle : List Char) : Bool :=
  match needle, hay with
  | [], _ => true
  | _ :: _, [] => false
  | a :: as, b :: bs => a == b && charsStartWith bs as

/-- JS `String.prototype.includes` on character lists: some tail of `hay`
starts with `needle`. -/
def jsIncludesChars (hay needle : List Char) : Bool :=
  match hay with
  | [] => needle.isEmpty
  | _ :: tl => charsStartWith hay needle || jsIncludesChars tl needle

/-- JS `hay.includes(needle)`. -/
def jsIncludes (hay needle : String) : Bool :=
  jsIncludesChars hay.data needle.data

/-- The sidebar filter (`src/App.jsx` 680-683): keep the markers whose
lower-cased name or lower-cased stage includes the lower-cased search text. -/
def filteredMarkers (markers : List MarkerData) (search : String) :
    List MarkerData :=
  markers.filter (fun m =>
    jsIncludes (jsToLower m.site_name) (jsToLower search) ||
    jsIncludes (jsToLower m.stage) (jsToLower search))

/-- The ordering relation of the live query: earlier documents in the list
carry timestamps at least as late. -/
def tsGe (a b : StoredDoc) : Prop :=
  b.data.timestamp ≤ a.data.timestamp

theorem mem_insertTsDesc {y d : StoredDoc} {l : List StoredDoc} :
    y ∈ insertTsDesc d l ↔ y = d ∨ y ∈ l := by
  induction l with
  | nil => simp [insertTsDesc]
  | cons x xs ih =>
    simp only [insertTsDesc]
    split
    · simp [List.mem_cons]
    · simp only [List.mem_cons, ih]
      tauto

theorem mem_sortTsDesc {y : StoredDoc} {l : List StoredDoc} :
    y ∈ sortTsDesc l ↔ y ∈ l := by
  induction l with
  | nil => simp [sortTsDesc]
  | cons x xs ih => simp [sortTsDesc, mem_insertTsDesc, ih]

theorem sorted_insertTsDesc {d : StoredDoc} {l : List StoredDoc}
    (h : List.Sorted tsGe l) : List.Sorted tsGe (insertTsDesc d l) := by
  induction l with
  | nil => simp [insertTsDesc]
  | cons x xs ih =>
    rw [List.sorted_cons] at h
    obtain ⟨hx, hxs⟩ := h
    simp only [insertTsDesc]
    split
    case isTrue hle =>
      rw [List.sorted_cons]
      refine ⟨?_, List.sorted_cons.mpr ⟨hx, hxs⟩⟩
      intro b hb
      rcases List.mem_cons.mp hb with rfl | hb'
      · exact hle
      · exact le_trans (hx b hb') hle
    case isFalse hgt =>
      rw [List.sorted_cons]
      refine ⟨?_, ih hxs⟩
      intro b hb
      rcases mem_insertTsDesc.mp hb with rfl | hb'
      · exact le_of_lt (lt_of_not_le hgt)
      · exact hx b hb'

theorem sorted_sortTsDesc (l : List StoredDoc) :
    List.Sorted tsGe (sortTsDesc l) := by
  induction l with
  | nil => simp [sortTsDesc]
  | cons x xs ih => exact sorted_insertTsDesc ih

theorem charsStartWith_iff (hay needle : List Char) :
    charsStartWith hay needle = true ↔ ∃ rest, hay = needle ++ rest := by
  induction needle generalizing hay with
  | nil => simp [charsStartWith]
  | cons a as ih =>
    cases hay with
    | nil =>
      simp [charsStartWith]
    | cons b bs =>
      simp only [charsStartWith, Bool.and_eq_true, beq_iff_eq, ih,
        List.cons_append, List.cons.injEq]
      constructor
      · rintro ⟨rfl, rest, rfl⟩
        exact ⟨rest, rfl, rfl⟩
      · rintro ⟨rest, rfl, rfl⟩
        exact ⟨rfl, rest, rfl⟩

theorem jsIncludesChars_iff (hay needle : List Char) :
    jsIncludesChars hay needle = true ↔
      ∃ pre post, hay = pre ++ needle ++ post := by
  induction hay with
  | nil =>
    simp only [jsIncludesChars, List.isEmpty_iff]
    constructor
    · rintro rfl
      exact ⟨[], [], rfl⟩
    · rintro ⟨pre, post, h⟩
      rcases List.append_eq_nil.mp (List.append_eq_nil.mp h.symm).1 with ⟨-, h2⟩
      exact h2
  | cons b tl ih =>
    simp only [jsIncludesChars, Bool.or_eq_true, charsStartWith_iff, ih]
    constructor
    · rintro (⟨rest, hr⟩ | ⟨pre, post, rfl⟩)
      · exact ⟨[], rest, by simpa using hr⟩
      · exact ⟨b :: pre, post, rfl⟩
    · rintro ⟨pre, post, hp⟩
      cases pre with
      | nil =>
        exact Or.inl ⟨post, by simpa using hp⟩
      | cons c pre' =>
        rcases List.cons.injEq .. ▸ hp with ⟨-, h2⟩
        exact Or.inr ⟨pre', post, h2⟩

/-- The spec's sidebar-filter predicate: `needle` occurs in `hay` as a
case-insensitive substring. -/
def substrCI (needle hay : String) : Prop :=
  ∃ pre post, (jsToLower hay).data = pre ++ (jsToLower needle).data ++ post

/-- C1: the claim says a superseded lookup's resolution never updates visible
state.  The code violates this: after lookups 1 ("London") and 2
("Londonderry") are issued, generation 1 is recorded as aborted, yet when
lookup 1's fetch settles with one result the controller applies it to the
visible suggestion list, because neither provider's `fetch` call is given the
abort controller's `signal`. -/
theorem C1_stale_lookup_updates_state :
    1 ∈ (runSearch [SearchEvent.issue "London", SearchEvent.issue "Londonderry"]
          initSearchState).abortedGens
    ∧ (runSearch [SearchEvent.issue "London", SearchEvent.issue "Londonderry",
          SearchEvent.resolve 1 (.results [⟨1, "London, UK", 51, 0, "city"⟩])]
        initSearchState).suggestions
      = [⟨1, "London, UK", 51, 0, "city"⟩] := by
  decide

/-- C2 counterexample: the claim says the local record list only ever holds
records owned by the (non-administrator) user, but the `useState` initialiser
fills it with six demo records owned by "John", "Jane", ..., none of which
belongs to the user `alice@seewise.ai`. -/
theorem C2_initial_markers_violate_ownership :
    isAdmin "alice@seewise.ai" = false
    ∧ (initialMarkers 0).map (fun m => m.salesperson)
        = ["John", "Jane", "Tony", "Bruce", "Alice", "Bob"]
    ∧ (initialMarkers 0).any
        (fun m => !(m.salesperson == "alice@seewise.ai")) = true := by
  decide

/-- C2 (amended): once a live-push snapshot is applied, the record list of a
non-administrator contains only records whose salesperson is the user's own
email; the administrator's list contains every record of the collection; and
in both cases the list is ordered by timestamp descending. -/
theorem C2_snapshot_ownership_and_order (email : String) (coll : List StoredDoc) :
    (isAdmin email = false →
      ∀ d ∈ clientsQuery email coll, d.data.salesperson = email)
    ∧ (isAdmin email = true →
      ∀ d ∈ coll, d ∈ clientsQuery email coll)
    ∧ List.Sorted tsGe (clientsQuery email coll) := by
  refine ⟨?_, ?_, sorted_sortTsDesc _⟩
  · intro hadm d hd
    simp only [clientsQuery, hadm, Bool.false_eq_true, if_false,
      mem_sortTsDesc, List.mem_filter, beq_iff_eq] at hd
    exact hd.2
  · intro hadm d hd
    simp only [clientsQuery, hadm, if_true, mem_sortTsDesc]
    exact hd

theorem C2_snapshot_ownership_and_order_witness :
    isAdmin "alice@seewise.ai" = false
    ∧ (⟨1, ⟨"N", "D", "alice@seewise.ai", "Pipeline", 0, 0, 3⟩⟩ : StoredDoc)
        ∈ clientsQuery "alice@seewise.ai"
            [⟨1, ⟨"N", "D", "alice@seewise.ai", "Pipeline", 0, 0, 3⟩⟩]
    ∧ (⟨1, ⟨"N", "D", "alice@seewise.ai", "Pipeline", 0, 0, 3⟩⟩ : StoredDoc).data.salesperson
        = "alice@seewise.ai" :=
  ⟨by decide, by decide,
   (C2_snapshot_ownership_and_order "alice@seewise.ai"
      [⟨1, ⟨"N", "D", "alice@seewise.ai", "Pipeline", 0, 0, 3⟩⟩]).1
     (by decide) _ (by decide)⟩

/-- C3 counterexample: the claim promises that after every create-form
submission the next snapshot contains the submitted record, but a
non-administrator (`alice@seewise.ai`) who edits the salesperson field to
another address (`bob@seewise.ai`) writes a record that their own filtered
subscription never delivers: the write lands in the store, yet the next
snapshot is empty. -/
theorem C3_foreign_salesperson_record_invisible :
    isAdmin "alice@seewise.ai" = false
    ∧ createSubmit [] 1 ⟨"N", "D", "bob@seewise.ai", "Pipeline"⟩ (0, 0) 5 ≠ []
    ∧ clientsQuery "alice@seewise.ai"
        (createSubmit [] 1 ⟨"N", "D", "bob@seewise.ai", "Pipeline"⟩ (0, 0) 5)
      = [] := by
  decide

/-- C3 (amended): provided the viewer is the administrator or the submitted
salesperson is the viewer's own email, the snapshot delivered after the
`addDoc` completes contains a record carrying every submitted field, the
store-assigned id, and the submission-time timestamp. -/
theorem C3_create_roundtrip (email : String) (coll : List StoredDoc)
    (freshId : Nat) (fd : FormData) (latlng : ℚ × ℚ) (now : Nat)
    (h : isAdmin email = true ∨ fd.salesperson = email) :
    ∃ d ∈ clientsQuery email (createSubmit coll freshId fd latlng now),
      d.id = freshId
      ∧ d.data.site_name = fd.site_name
      ∧ d.data.description = fd.description
      ∧ d.data.salesperson = fd.salesperson
      ∧ d.data.stage = fd.stage
      ∧ d.data.lat = latlng.1
      ∧ d.data.lng = latlng.2
      ∧ d.data.timestamp = now := by
  refine ⟨⟨freshId, buildNewMarker fd latlng now⟩, ?_,
    rfl, rfl, rfl, rfl, rfl, rfl, rfl, rfl⟩
  have hmem : (⟨freshId, buildNewMarker fd latlng now⟩ : StoredDoc)
      ∈ createSubmit coll freshId fd latlng now := by
    simp [createSubmit, addDocClients]
  by_cases hadm : isAdmin email = true
  · simp only [clientsQuery, hadm, if_true, mem_sortTsDesc]
    exact hmem
  · have hsp : fd.salesperson = email := by
      rcases h with h1 | h2
      · exact absurd h1 hadm
      · exact h2
    have hadm' : isAdmin email = false := by
      simpa using hadm
    simp only [clientsQuery, hadm', Bool.false_eq_true, if_false,
      mem_sortTsDesc, List.mem_filter]
    exact ⟨hmem, by simp [buildNewMarker, hsp]⟩

theorem C3_create_roundtrip_witness :
    isAdmin "admin@seewise.ai" = true
    ∧ ∃ d ∈ clientsQuery "admin@seewise.ai"
          (createSubmit [] 7 ⟨"N", "D", "bob@seewise.ai", "Pipeline"⟩ (1, 2) 5),
        d.id = 7
        ∧ d.data.site_name = "N"
        ∧ d.data.description = "D"
        ∧ d.data.salesperson = "bob@seewise.ai"
        ∧ d.data.stage = "Pipeline"
        ∧ d.data.lat = 1
        ∧ d.data.lng = 2
        ∧ d.data.timestamp = 5 :=
  ⟨by decide,
   C3_create_roundtrip "admin@seewise.ai" [] 7
     ⟨"N", "D", "bob@seewise.ai", "Pipeline"⟩ (1, 2) 5 (Or.inl (by decide))⟩

/-- A concrete two-record collection, owned by the administrator: document 1
stamped at instant 10, document 2 at instant 5. -/
def editDemoBefore : List StoredDoc :=
  [⟨1, ⟨"A", "", "admin@seewise.ai", "Pipeline", 0, 0, 10⟩⟩,
   ⟨2, ⟨"B", "", "admin@seewise.ai", "Pipeline", 0, 0, 5⟩⟩]

/-- The collection after re-submitting document 2 through the edit form at
instant 20. -/
def editDemoAfter : List StoredDoc :=
  editSubmit editDemoBefore 2 ⟨"B", "", "admin@seewise.ai", "Pipeline"⟩ (0, 0) 20

/-- C4: every form submission stamps the written document with the
submission-time instant — `buildNewMarker` always carries `now`, and after an
edit the document with the edited id carries `now` in place of its original
creation timestamp.  Concretely, editing document 2 of `editDemoBefore` at
instant 20 moves it from last to first in the timestamp-descending query
ordering. -/
theorem C4_submission_overwrites_timestamp (coll : List StoredDoc)
    (docId : Nat) (fd : FormData) (latlng : ℚ × ℚ) (now : Nat) (d : StoredDoc)
    (hd : d ∈ editSubmit coll docId fd latlng now) (hid : d.id = docId) :
    d.data.timestamp = now
    ∧ (buildNewMarker fd latlng now).timestamp = now
    ∧ (clientsQuery "admin@seewise.ai" editDemoBefore).map StoredDoc.id = [1, 2]
    ∧ (clientsQuery "admin@seewise.ai" editDemoAfter).map StoredDoc.id = [2, 1] := by
  refine ⟨?_, rfl, by decide, by decide⟩
  simp only [editSubmit, updateDocClients, List.mem_map] at hd
  obtain ⟨x, hx, hxd⟩ := hd
  by_cases hbeq : x.id == docId
  · rw [if_pos hbeq] at hxd
    rw [← hxd]
    rfl
  · rw [if_neg hbeq] at hxd
    subst hxd
    exact absurd (beq_iff_eq.mpr hid) hbeq

theorem C4_submission_overwrites_timestamp_witness :
    (⟨2, buildNewMarker ⟨"B", "", "admin@seewise.ai", "Pipeline"⟩ (0, 0) 20⟩
        : StoredDoc) ∈ editDemoAfter
    ∧ (⟨2, buildNewMarker ⟨"B", "", "admin@seewise.ai", "Pipeline"⟩ (0, 0) 20⟩
        : StoredDoc).data.timestamp = 20
    ∧ (clientsQuery "admin@seewise.ai" editDemoAfter).map StoredDoc.id = [2, 1] :=
  ⟨by decide,
   (C4_submission_overwrites_timestamp editDemoBefore 2
      ⟨"B", "", "admin@seewise.ai", "Pipeline"⟩ (0, 0) 20
      ⟨2, buildNewMarker ⟨"B", "", "admin@seewise.ai", "Pipeline"⟩ (0, 0) 20⟩
      (by decide) rfl).1,
   (C4_submission_overwrites_timestamp editDemoBefore 2
      ⟨"B", "", "admin@seewise.ai", "Pipeline"⟩ (0, 0) 20
      ⟨2, buildNewMarker ⟨"B", "", "admin@seewise.ai", "Pipeline"⟩ (0, 0) 20⟩
      (by decide) rfl).2.2.2⟩

/-- C5: for every query shorter than 3 characters, `searchLocations` issues
no network lookup and sets the suggestion list empty. -/
theorem C5_short_query_no_lookup (q : String) (s : SearchState)
    (h : q.length < 3) :
    (searchLocationsStart q s).2 = none
    ∧ (searchLocationsStart q s).1.suggestions = [] := by
  simp [searchLocationsStart, if_pos h]

theorem C5_short_query_no_lookup_witness :
    "ab".length < 3
    ∧ (searchLocationsStart "ab" initSearchState).2 = none
    ∧ (searchLocationsStart "ab" initSearchState).1.suggestions = [] :=
  ⟨by decide, C5_short_query_no_lookup "ab" initSearchState (by decide)⟩

/-- C6: the filtered sidebar list holds exactly the records of the input list
whose name or stage contains the search text as a case-insensitive
substring. -/
theorem C6_sidebar_filter_exact (markers : List MarkerData) (search : String)
    (m : MarkerData) :
    m ∈ filteredMarkers markers search ↔
      m ∈ markers ∧ (substrCI search m.site_name ∨ substrCI search m.stage) := by
  simp [filteredMarkers, List.mem_filter, Bool.or_eq_true, jsIncludes,
    jsIncludesChars_iff, substrCI]

/-- C7: a settled lookup with zero matches yields an empty list and the
"no results" message; a non-cancellation failure yields an empty list and the
generic "search failed" message; a failure named `AbortError` changes neither
the suggestion list nor the error. -/
theorem C7_resolution_error_taxonomy (s : SearchState) (n : String) :
    (searchLocationsResolve (.results []) s).suggestions = []
    ∧ (searchLocationsResolve (.results []) s).error = "No results found"
    ∧ (n ≠ "AbortError" →
        (searchLocationsResolve (.failure n) s).error
            = "Search failed. Please try again."
        ∧ (searchLocationsResolve (.failure n) s).suggestions = [])
    ∧ (searchLocationsResolve (.failure "AbortError") s).error = s.error
    ∧ (searchLocationsResolve (.failure "AbortError") s).suggestions
        = s.suggestions := by
  refine ⟨rfl, rfl, ?_, rfl, rfl⟩
  intro hn
  simp [searchLocationsResolve, hn]

theorem C7_resolution_error_taxonomy_witness :
    ("TypeError" : String) ≠ "AbortError"
    ∧ (searchLocationsResolve (.failure "TypeError") initSearchState).error
        = "Search failed. Please try again."
    ∧ (searchLocationsResolve (.failure "TypeError") initSearchState).suggestions
        = [] :=
  ⟨by decide,
   ((C7_resolution_error_taxonomy initSearchState "TypeError").2.2.1 (by decide)).1,
   ((C7_resolution_error_taxonomy initSearchState "TypeError").2.2.1 (by decide)).2⟩

/-- C8: `handleClear`, from any state, empties the query, the suggestion
list, the selected position and name, the error, and the expanded flag. -/
theorem C8_clear_resets_all (s : SearchState) :
    (handleClear s).query = ""
    ∧ (handleClear s).suggestions = []
    ∧ (handleClear s).selectedPos = none
    ∧ (handleClear s).selectedName = ""
    ∧ (handleClear s).error = ""
    ∧ (handleClear s).isExpanded = false :=
  ⟨rfl, rfl, rfl, rfl, rfl, rfl⟩

/-- C9: selecting a suggestion persists its name and coordinate as the
selected location, clears the suggestion list, collapses the panel, clears
the error, and — the map instance being present — requests a recenter to the
suggestion's coordinate at zoom 14. -/
theorem C9_select_suggestion (place : Suggestion) (s : SearchState)
    (mapPresent : Bool) (h : mapPresent = true) :
    (handleSelect place mapPresent s).1.selectedPos = some (place.lat, place.lon)
    ∧ (handleSelect place mapPresent s).1.selectedName = place.display_name
    ∧ (handleSelect place mapPresent s).1.suggestions = []
    ∧ (handleSelect place mapPresent s).1.isExpanded = false
    ∧ (handleSelect place mapPresent s).1.error = ""
    ∧ (handleSelect place mapPresent s).2 = some (place.lat, place.lon, 14) := by
  subst h
  exact ⟨rfl, rfl, rfl, rfl, rfl, rfl⟩

theorem C9_select_suggestion_witness :
    (true = true)
    ∧ (handleSelect ⟨9, "Paris, France", 48, 2, "city"⟩ true initSearchState).1.selectedPos
        = some (48, 2)
    ∧ (handleSelect ⟨9, "Paris, France", 48, 2, "city"⟩ true initSearchState).2
        = some (48, 2, 14) :=
  ⟨rfl,
   (C9_select_suggestion ⟨9, "Paris, France", 48, 2, "city"⟩ initSearchState
      true rfl).1,
   (C9_select_suggestion ⟨9, "Paris, France", 48, 2, "city"⟩ initSearchState
      true rfl).2.2.2.2.2⟩

/-- C10: every registration attempt with a disallowed email domain, a
password/confirmation mismatch, or a password shorter than 6 characters is
rejected by a synchronous alert and never reaches the account-creation
network call. -/
theorem C10_registration_validation (email password confirm : String)
    (h : jsEndsWith email "@seewise.ai" = false
      ∨ password ≠ confirm ∨ password.length < 6) :
    (handleRegister email password confirm).2 = false
    ∧ (handleRegister email password confirm).1 ≠ [] := by
  by_cases he : jsEndsWith email "@seewise.ai" = true
  · by_cases hpc : password = confirm
    · rcases h with h1 | h2 | h3
      · rw [he] at h1
        exact absurd h1 (by simp)
      · exact absurd hpc h2
      · subst hpc
        simp [handleRegister, he, h3]
    · simp [handleRegister, he, hpc]
  · simp [handleRegister, he]

theorem C10_registration_validation_witness :
    jsEndsWith "a@gmail.com" "@seewise.ai" = false
    ∧ (handleRegister "a@gmail.com" "secret1" "secret1").2 = false
    ∧ (handleRegister "a@gmail.com" "secret1" "secret1").1 ≠ [] :=
  ⟨by decide,
   C10_registration_validation "a@gmail.com" "secret1" "secret1"
     (Or.inl (by decide))⟩
